import Mathlib

/-!
Verification development for the cmus-lyrics repository.

The program polls the cmus music player for the current track, and fetches
lyrics for it.  The repository has three Go source files:

* `main.go` — runs `cmus-remote -Q`, checks the output against the regular
  expression `status (playing|paused)`, parses the `tag artist/album/title`
  lines, and fetches lyrics (currently a placeholder implementation).
* the Genius API client — a three-stage remote lookup
  (search → song lookup → page scrape) followed by markup normalization.
* the configuration loader — reads a JSON config file holding the access
  token; a missing file is not an error.

The development shallowly embeds these functions.  All string work is done on
`List Char` with structural recursion so that every definition reduces inside
the kernel (`decide` / `rfl`).  Remote calls and the file system are abstracted
as explicit environments of pure functions; the client records the remote calls
it performs in a trace so that "no further stage is executed" is a statement
about the trace.
-/

namespace CmusLyrics

/-! ## Basic list/string machinery (structural, kernel-reducible) -/

/-- Boolean list-prefix test, structural so it reduces in the kernel. -/
def isPrefList : List Char → List Char → Bool
  | [], _ => true
  | _ :: _, [] => false
  | a :: as, b :: bs => a == b && isPrefList as bs

/-- Boolean substring test: does `pat` occur contiguously inside `s`? -/
def containsSub (s pat : List Char) : Bool :=
  isPrefList pat s ||
    match s with
    | [] => false
    | _ :: rest => containsSub rest pat

/-- Split a character list at newline characters; embeds Go's
`strings.Split(s, "\n")` (so the empty string yields one empty field). -/
def splitOnNewline : List Char → List (List Char)
  | [] => [[]]
  | c :: rest =>
    let r := splitOnNewline rest
    if c = '\n' then [] :: r
    else
      match r with
      | [] => [[c]]
      | h :: t => (c :: h) :: t

/-- Go's `strings.HasPrefix` on embedded strings. -/
def strHasPre (p s : String) : Bool := isPrefList p.data s.data

/-- Go's `strings.TrimPrefix`: drop `p` from the front of `s` when it is a
prefix, otherwise return `s` unchanged. -/
def trimPre (p s : String) : String :=
  if strHasPre p s then ⟨s.data.drop p.data.length⟩ else s

/-- The lines of a player-status text, as Go's `strings.Split(output, "\n")`. -/
def linesOf (s : String) : List String :=
  (splitOnNewline s.data).map (fun l => ⟨l⟩)

/-! ## Embedding of `main.go` -/

/-- The `(artist, album, title)` triple produced by `parseCmusOutput`. -/
structure TrackInfo where
  artist : String
  album : String
  title : String
deriving DecidableEq

/-- One iteration of the loop in `parseCmusOutput`: the `if / else if` chain
over the three recognized tag prefixes; any other line leaves the
accumulator unchanged. -/
def parseStep (acc : TrackInfo) (line : String) : TrackInfo :=
  if strHasPre "tag artist " line then ⟨trimPre "tag artist " line, acc.album, acc.title⟩
  else if strHasPre "tag album " line then ⟨acc.artist, trimPre "tag album " line, acc.title⟩
  else if strHasPre "tag title " line then ⟨acc.artist, acc.album, trimPre "tag title " line⟩
  else acc

/-- `parseCmusOutput` from `main.go`: split the output into lines and fold the
tag-extraction step over them, starting from Go's zero values `""`. -/
def parseCmusOutput (output : String) : TrackInfo :=
  (linesOf output).foldl parseStep ⟨"", "", ""⟩

/-- The check `regexp.MustCompile("status (playing|paused)").MatchString`:
the regular expression is a literal alternation, so it matches exactly when
one of the two literal strings occurs as a substring anywhere in the text. -/
def statusActive (s : String) : Bool :=
  containsSub s.data ("status playing").data || containsSub s.data ("status paused").data

/-- `fetchLyrics` from `main.go`: returns the placeholder text and a nil
error (modelled as `none`), exactly as the source's
`fmt.Sprintf("Lyrics placeholder for %s - %s from the album %s", artist, track, album)`. -/
def fetchLyrics (artist album track : String) : String × Option String :=
  ("Lyrics placeholder for " ++ artist ++ " - " ++ track ++ " from the album " ++ album, none)

/-- The observable outcome of `main` once the player output has been obtained. -/
inductive MainOutcome where
  | noTrack
  | incompleteMetadata
  | fetchError (e : String)
  | display (artist album title lyrics : String)
deriving DecidableEq

/-- The decision flow of `main` after `cmus-remote -Q` returned `output`:
regex status check, parse, empty artist/title check, fetch, then display. -/
def runMain (output : String) : MainOutcome :=
  if !statusActive output then .noTrack
  else
    let info := parseCmusOutput output
    if info.artist = "" || info.title = "" then .incompleteMetadata
    else
      match fetchLyrics info.artist info.album info.title with
      | (_, some e) => .fetchError e
      | (lyrics, none) => .display info.artist info.album info.title lyrics

/-! ## Embedding of the Genius API client

The client fetches `search`, `songs/{id}` and a lyrics content page over HTTP.
Each remote endpoint is abstracted as a pure function in a `GeniusEnv`; the
HTML page is abstracted as a document tree in which the two structural marker
attributes of interest (`data-lyrics-container="true"` and
`data-exclude-from-selection="true"`) appear as boolean flags. -/

/-- An HTML forest: a sibling-chained sequence of text and element nodes.
`container` embeds the attribute `data-lyrics-container="true"`, `excluded`
embeds `data-exclude-from-selection="true"`. -/
inductive Node where
  | nil
  | text (s : String) (rest : Node)
  | elem (tag : String) (container excluded : Bool) (children : Node) (rest : Node)
deriving DecidableEq

/-- Embeds `s.Find("[data-exclude-from-selection=\"true\"]").Remove()`: delete
every descendant element carrying the excluded marker, together with its
subtree. -/
def removeExcl : Node → Node
  | .nil => .nil
  | .text s rest => .text s (removeExcl rest)
  | .elem tag c e children rest =>
    if e then removeExcl rest
    else .elem tag c e (removeExcl children) (removeExcl rest)

/-- Serialization of a forest back to markup, as `goquery`'s `Html()` renders
it (`net/html` renders a childless `br` element self-closing, which is what
the later `<br/>` replacement relies on). -/
def serializeNodes : Node → String
  | .nil => ""
  | .text s rest => s ++ serializeNodes rest
  | .elem tag _ _ children rest =>
    (if tag = "br" && children = .nil then "<br/>"
     else "<" ++ tag ++ ">" ++ serializeNodes children ++ "</" ++ tag ++ ">") ++
      serializeNodes rest

/-- Embeds `doc.Find("[data-lyrics-container=\"true\"]")`: the child forests of
all elements carrying the container marker, in document (pre-)order. -/
def collectContainers : Node → List Node
  | .nil => []
  | .text _ rest => collectContainers rest
  | .elem _ c _ children rest =>
    (if c then [children] else []) ++ collectContainers children ++ collectContainers rest

/-- The scrape step of `getLyrics`: for each container, remove the excluded
regions and append the remaining inner markup to a string builder; fail with
`"no lyrics found on page"` when the builder stayed empty. -/
def scrapeSource (doc : Node) : Except String String :=
  let b := (collectContainers doc).foldl
    (fun acc children => acc ++ serializeNodes (removeExcl children)) ""
  if b.length = 0 then .error "no lyrics found on page" else .ok b

/-- Spec-side description of the same concatenation, for comparison with
`scrapeSource`: the contents of the lyrics containers in document order, each
with its excluded regions removed, joined together. -/
def joinedLyrics (doc : Node) : String :=
  String.join ((collectContainers doc).map (fun children => serializeNodes (removeExcl children)))

/-- Fuel-indexed core of Go's `strings.ReplaceAll`; each step consumes at
least one character of the subject and exactly one unit of fuel, so fuel equal
to the subject's length is always enough. -/
def replaceAllAux (pat rep : List Char) : Nat → List Char → List Char
  | _, [] => []
  | 0, s => s
  | fuel + 1, c :: rest =>
    if isPrefList pat (c :: rest) then
      rep ++ replaceAllAux pat rep fuel (List.drop pat.length (c :: rest))
    else
      c :: replaceAllAux pat rep fuel rest

/-- Go's `strings.ReplaceAll(s, pat, rep)` for the non-empty patterns the
source uses (the source only ever replaces `"<br/>"` and `"<br>"`). -/
def replaceAllStr (s pat rep : String) : String :=
  if pat.data = [] then s else ⟨replaceAllAux pat.data rep.data s.data.length s.data⟩

/-- Tag stripping as performed by parsing markup and taking `.Text()`:
characters between `<` and `>` (inclusive) are dropped, everything else kept. -/
def stripTagsAux : Bool → List Char → List Char
  | _, [] => []
  | false, c :: r => if c = '<' then stripTagsAux true r else c :: stripTagsAux false r
  | true, c :: r => if c = '>' then stripTagsAux false r else stripTagsAux true r

/-- The source wraps the lyrics markup in a `div`, parses it, and extracts the
text content. -/
def stripTags (s : String) : String :=
  ⟨stripTagsAux false (("<div>" ++ s ++ "</div>").data)⟩

/-- Whitespace predicate for `strings.TrimSpace` (ASCII whitespace suffices
for the embedded texts). -/
def isSpaceChar (c : Char) : Bool :=
  c = ' ' || c = '\t' || c = '\n' || c = '\r'

/-- Go's `strings.TrimSpace`. -/
def trimSpace (s : String) : String :=
  ⟨((s.data.dropWhile isSpaceChar).reverse.dropWhile isSpaceChar).reverse⟩

/-- The normalization tail of `getLyrics`: replace `<br/>` and then `<br>`
with literal newlines, then strip the remaining markup and trim whitespace. -/
def normalizeLyrics (s : String) : String :=
  let l1 := replaceAllStr s "<br/>" "\n"
  let l2 := replaceAllStr l1 "<br>" "\n"
  trimSpace (stripTags l2)

/-- The `result` object inside a search hit. -/
structure HitResult where
  id : Int
  title : String
  artistNames : String
deriving DecidableEq

/-- One hit of the search response. -/
structure Hit where
  hitType : String
  result : HitResult
deriving DecidableEq

/-- The decoded `search` response: an ordered list of hits. -/
structure SearchResponse where
  hits : List Hit
deriving DecidableEq

/-- The decoded `songs/{id}` response: the content-page path. -/
structure GetSongResponse where
  path : String
deriving DecidableEq

/-- A remote call performed by the client, with its argument. -/
inductive RemoteCall where
  | searchCall (q : String)
  | getSongCall (id : Int)
  | fetchPageCall (path : String)
deriving DecidableEq

/-- Abstraction of the three remote endpoints.  Each returns either a decoded
response or an error string (transport failures, bad status codes and decode
failures of the source all surface this way). -/
structure GeniusEnv where
  searchFn : String → Except String SearchResponse
  getSongFn : Int → Except String GetSongResponse
  pageFn : String → Except String Node

/-- `errors.Wrap(err, msg)` from pkg/errors: its message is the wrapping
message, a colon-space separator, then the inner message. -/
def wrapErr (stage e : String) : String := stage ++ ": " ++ e

/-- `GeniusAPIClient.getLyrics` (lower-case, stage 3): fetch the content page
at `path`, scrape the lyrics containers, and normalize the markup. -/
def getLyricsStage (env : GeniusEnv) (path : String) : Except String String :=
  match env.pageFn path with
  | .error e => .error e
  | .ok doc =>
    match scrapeSource doc with
    | .error e => .error e
    | .ok raw => .ok (normalizeLyrics raw)

/-- `GeniusAPIClient.GetLyrics`: search with the combined "artist title"
query, fail with `"no results"` on an empty hit list, look up the song of the
first hit's id, then fetch, scrape and normalize its content page.  Each
remote stage's error is wrapped with that stage's name.  The second component
is the trace of remote calls performed, in order. -/
def GetLyrics (env : GeniusEnv) (artist title : String) :
    Except String String × List RemoteCall :=
  let q := artist ++ " " ++ title
  match env.searchFn q with
  | .error e => (.error (wrapErr "search genius api" e), [.searchCall q])
  | .ok sr =>
    match sr.hits with
    | [] => (.error "no results", [.searchCall q])
    | hit :: _ =>
      match env.getSongFn hit.result.id with
      | .error e =>
        (.error (wrapErr "get song from genius api" e),
         [.searchCall q, .getSongCall hit.result.id])
      | .ok song =>
        let trace := [RemoteCall.searchCall q, .getSongCall hit.result.id,
          .fetchPageCall song.path]
        match getLyricsStage env song.path with
        | .error e => (.error (wrapErr "scrape lyrics from genius webpage" e), trace)
        | .ok lyrics => (.ok lyrics, trace)

/-! ## Embedding of the configuration loader -/

/-- The application configuration: the Genius access token. -/
structure Config where
  geniusAccessToken : String
deriving DecidableEq

/-- Outcome of `os.ReadFile` on the config path: the file may not exist, the
read may fail for another reason, or it yields the file's bytes. -/
inductive ReadFileResult where
  | notExists
  | failure (e : String)
  | content (data : String)
deriving DecidableEq

/-- Abstraction of the effects `LoadConfig` performs: resolving the config
path (which can fail on home-directory lookup or directory creation), reading
the file at that path, and JSON-unmarshalling its contents into a `Config`. -/
structure ConfigEnv where
  configPath : Except String String
  readFile : String → ReadFileResult
  unmarshal : String → Except String Config

/-- `LoadConfig`: resolve the path, read the file — a missing file yields the
zero-value `Config` (empty token) with no error — and parse the contents,
wrapping each failure with its step's message. -/
def LoadConfig (env : ConfigEnv) : Except String Config :=
  match env.configPath with
  | .error e => .error (wrapErr "get config path" e)
  | .ok p =>
    match env.readFile p with
    | .notExists => .ok ⟨""⟩
    | .failure e => .error (wrapErr "read config file" e)
    | .content data =>
      match env.unmarshal data with
      | .error e => .error (wrapErr "parse config file" e)
      | .ok c => .ok c

/-! ## The fetch coordinator: the TUI `Update` loop

The coordinator is the Bubble Tea update loop of the final TUI `main.go`
(embedded in `src/README.md`): the model holds the current artist, album,
title and lyrics; `checkCmusCmd` posts a `songInfoMsg`, and
`fetchLyricsCmd` posts a `songLyricsMsg` when the asynchronous Genius fetch
completes.  Status-bar formatting, scrolling, and `centerText` (a pure
width-dependent re-layout of the text handed to the viewport) are
presentation; the embedding stores the text itself as the viewport content. -/

/-- The coordinator-relevant fields of the TUI model: current track metadata,
the `lyrics` field, and the text last handed to the viewport. -/
structure TeaModel where
  artist : String
  album : String
  title : String
  lyrics : String
  content : String
deriving DecidableEq

/-- The messages the update loop reacts to: the manual-refresh key, a poll
result (`songInfoMsg`, whose `err` field the loop never reads), a completed
fetch (`songLyricsMsg`), and the periodic tick. -/
inductive TeaMsg where
  | keyRefresh
  | songInfo (artist album title : String) (err : Option String)
  | songLyrics (artist album title lyrics : String) (err : Option String)
  | cmusTick
deriving DecidableEq

/-- The commands the update loop schedules. -/
inductive TeaCmd where
  | checkCmus
  | tick
  | fetchLyricsFor (artist album title : String)
deriving DecidableEq

/-- `model.Update` from the final TUI `main.go` in `src/README.md`, restricted
to the coordinator messages: a `songInfoMsg` updates the track fields only
when artist or title changed (showing `Loading...`), then always schedules the
next tick and a fetch for the model's current track; a successful
`songLyricsMsg` stores and shows its lyrics unconditionally — there is no
comparison of the message's track against the model's — and a failed one
shows the error text; tick and the `r` key re-run the cmus check. -/
def teaUpdate (m : TeaModel) : TeaMsg → TeaModel × List TeaCmd
  | .keyRefresh => (m, [.checkCmus])
  | .songInfo artist album title _err =>
    let m' := if m.artist ≠ artist ∨ m.title ≠ title
      then (⟨artist, album, title, m.lyrics, "Loading..."⟩ : TeaModel)
      else m
    (m', [.tick, .fetchLyricsFor m'.artist m'.album m'.title])
  | .songLyrics _ _ _ lyrics err =>
    match err with
    | some e => (⟨m.artist, m.album, m.title, m.lyrics, e⟩, [])
    | none => (⟨m.artist, m.album, m.title, lyrics, lyrics⟩, [])
  | .cmusTick => (m, [.checkCmus])

/-- Messages are applied to the model strictly in arrival order. -/
def teaRun (m : TeaModel) (msgs : List TeaMsg) : TeaModel :=
  msgs.foldl (fun m msg => (teaUpdate m msg).1) m

/-! ## Specification-side descriptions and concrete test fixtures -/

/-- The value of the last line of `ls` starting with prefix `p`, with `p`
trimmed off; `none` when no line matches.  Used to state what
`parseCmusOutput` extracts for one tag. -/
def lastTagValue (p : String) : List String → Option String
  | [] => none
  | l :: ls =>
    match lastTagValue p ls with
    | some v => some v
    | none => if strHasPre p l then some (trimPre p l) else none

/-- The placeholder text `fetchLyrics` formats. -/
def placeholderFor (artist album track : String) : String :=
  "Lyrics placeholder for " ++ artist ++ " - " ++ track ++ " from the album " ++ album

/-- A sample search hit with song id 7. -/
def sampleHit : Hit := ⟨"song", ⟨7, "T", "A"⟩⟩

/-- A content page with one lyrics container holding plain text. -/
def sampleDoc : Node := .elem "div" true false (.text "la la" .nil) .nil

/-- A content page with no lyrics container at all. -/
def emptyDoc : Node := .elem "div" false false (.text "la la" .nil) .nil

/-- Environment whose search endpoint fails. -/
def envSearchErr : GeniusEnv :=
  ⟨fun _ => .error "boom", fun _ => .error "x", fun _ => .error "x"⟩

/-- Environment whose search succeeds with an empty hit list. -/
def envNoHits : GeniusEnv :=
  ⟨fun _ => .ok ⟨[]⟩, fun _ => .error "x", fun _ => .error "x"⟩

/-- Environment whose song lookup fails. -/
def envSongErr : GeniusEnv :=
  ⟨fun _ => .ok ⟨[sampleHit]⟩, fun _ => .error "boom", fun _ => .error "x"⟩

/-- Environment whose content-page fetch fails. -/
def envPageErr : GeniusEnv :=
  ⟨fun _ => .ok ⟨[sampleHit]⟩, fun _ => .ok ⟨"/p"⟩, fun _ => .error "boom"⟩

/-- Environment whose content page has no lyrics container. -/
def envNoLyrics : GeniusEnv :=
  ⟨fun _ => .ok ⟨[sampleHit]⟩, fun _ => .ok ⟨"/p"⟩, fun _ => .ok emptyDoc⟩

/-- Environment where all three stages succeed. -/
def envHappy : GeniusEnv :=
  ⟨fun _ => .ok ⟨[sampleHit]⟩, fun _ => .ok ⟨"/p"⟩, fun _ => .ok sampleDoc⟩

/-- Config environment: the file does not exist. -/
def cfgEnvMissing : ConfigEnv :=
  ⟨.ok "config.json", fun _ => .notExists, fun _ => .error "x"⟩

/-- Config environment: the file exists but reading it fails. -/
def cfgEnvReadFail : ConfigEnv :=
  ⟨.ok "config.json", fun _ => .failure "denied", fun _ => .error "x"⟩

/-- Config environment: the file is read but its contents do not parse. -/
def cfgEnvParseFail : ConfigEnv :=
  ⟨.ok "config.json", fun _ => .content "notjson", fun _ => .error "bad syntax"⟩

/-! ## Helper lemmas about the string machinery -/

theorem isPrefList_iff : ∀ p s : List Char, isPrefList p s = true ↔ p <+: s
  | [], s => by simp [isPrefList]
  | a :: as, [] => by simp [isPrefList]
  | a :: as, b :: bs => by
    simp [isPrefList, List.cons_prefix_cons, isPrefList_iff as bs, Bool.and_eq_true,
      beq_iff_eq]

theorem containsSub_iff : ∀ s pat : List Char, containsSub s pat = true ↔ pat <:+: s
  | [], pat => by
    simp [containsSub, isPrefList_iff, List.infix_nil, List.prefix_nil]
  | c :: rest, pat => by
    rw [containsSub]
    simp [isPrefList_iff, containsSub_iff rest pat, List.infix_cons_iff]

theorem splitOnNewline_ne_nil : ∀ cs : List Char, splitOnNewline cs ≠ []
  | [] => by simp [splitOnNewline]
  | c :: rest => by
    simp only [splitOnNewline]
    split
    · simp
    · split
      · simp
      · simp

theorem splitOnNewline_head_pre :
    ∀ (cs h : List Char) (t : List (List Char)), splitOnNewline cs = h :: t → h <+: cs
  | [], h, t => by
    intro heq
    simp [splitOnNewline] at heq
    simp [heq.1]
  | c :: rest, h, t => by
    intro heq
    simp only [splitOnNewline] at heq
    by_cases hc : c = '\n'
    · simp [hc] at heq
      simp [heq.1]
    · simp only [hc, if_false] at heq
      cases hr : splitOnNewline rest with
      | nil => exact absurd hr (splitOnNewline_ne_nil rest)
      | cons h' t' =>
        rw [hr] at heq
        have hpre : h' <+: rest := splitOnNewline_head_pre rest h' t' hr
        have : c :: h' = h ∧ t' = t := by
          constructor
          · exact (List.cons.injEq _ _ _ _).mp heq |>.1
          · exact (List.cons.injEq _ _ _ _).mp heq |>.2
        rw [← this.1]
        exact (List.cons_prefix_cons).mpr ⟨rfl, hpre⟩

theorem memSplitLineSeg :
    ∀ (cs l : List Char), l ∈ splitOnNewline cs → l <:+: cs
  | [], l => by
    intro hmem
    simp [splitOnNewline] at hmem
    simp [hmem]
  | c :: rest, l => by
    intro hmem
    simp only [splitOnNewline] at hmem
    by_cases hc : c = '\n'
    · simp [hc] at hmem
      rcases hmem with h | h
      · simp [h]
      · exact List.infix_cons (memSplitLineSeg rest l h)
    · simp only [hc, if_false] at hmem
      cases hr : splitOnNewline rest with
      | nil => exact absurd hr (splitOnNewline_ne_nil rest)
      | cons h' t' =>
        rw [hr] at hmem
        rcases List.mem_cons.mp hmem with h | h
        · have hpre : h' <+: rest := splitOnNewline_head_pre rest h' t' hr
          rw [h]
          exact ((List.cons_prefix_cons).mpr ⟨rfl, hpre⟩).isInfix
        · have : l ∈ splitOnNewline rest := by rw [hr]; exact List.mem_cons_of_mem _ h
          exact List.infix_cons (memSplitLineSeg rest l this)

/-- A full line of the player output is in particular a substring of it. -/
theorem containsSub_of_mem_lines (out l : String) (hl : l ∈ linesOf out) :
    containsSub out.data l.data = true := by
  rcases List.mem_map.mp hl with ⟨cs, hcs, hmk⟩
  have : l.data = cs := by rw [← hmk]
  rw [this]
  exact (containsSub_iff _ _).mpr (memSplitLineSeg _ _ hcs)

/-- If some line of the output is `status playing` or `status paused`, the
regex check succeeds. -/
theorem statusActive_of_line (out l : String) (hl : l ∈ linesOf out)
    (h : l = "status playing" ∨ l = "status paused") : statusActive out = true := by
  unfold statusActive
  rcases h with h | h
  · rw [h] at hl
    simp [containsSub_of_mem_lines out _ hl]
  · rw [h] at hl
    simp [containsSub_of_mem_lines out _ hl]

/-! ## Characterization of `parseCmusOutput` -/

/-- Two mutually non-comparable prefixes cannot both start the same line. -/
theorem strHasPre_excl (p q l : String)
    (hpq : isPrefList p.data q.data = false) (hqp : isPrefList q.data p.data = false)
    (h : strHasPre p l = true) : strHasPre q l = false := by
  by_contra hq
  have hq' : strHasPre q l = true := by
    cases hqt : strHasPre q l
    · exact absurd hqt hq
    · rfl
  have h1 : p.data <+: l.data := (isPrefList_iff _ _).mp h
  have h2 : q.data <+: l.data := (isPrefList_iff _ _).mp hq'
  rcases List.prefix_or_prefix_of_prefix h1 h2 with hc | hc
  · rw [(isPrefList_iff _ _).mpr hc] at hpq
    exact Bool.true_eq_false.mp hpq
  · rw [(isPrefList_iff _ _).mpr hc] at hqp
    exact Bool.true_eq_false.mp hqp

theorem artist_not_album (l : String) (h : strHasPre "tag artist " l = true) :
    strHasPre "tag album " l = false :=
  strHasPre_excl _ _ l (by decide) (by decide) h

theorem artist_not_title (l : String) (h : strHasPre "tag artist " l = true) :
    strHasPre "tag title " l = false :=
  strHasPre_excl _ _ l (by decide) (by decide) h

theorem album_not_title (l : String) (h : strHasPre "tag album " l = true) :
    strHasPre "tag title " l = false :=
  strHasPre_excl _ _ l (by decide) (by decide) h

theorem parseStep_artist (acc : TrackInfo) (l : String) :
    (parseStep acc l).artist =
      if strHasPre "tag artist " l then trimPre "tag artist " l else acc.artist := by
  unfold parseStep
  cases h1 : strHasPre "tag artist " l <;>
    simp [h1] <;>
    cases h2 : strHasPre "tag album " l <;>
    simp [h2] <;>
    cases h3 : strHasPre "tag title " l <;>
    simp [h3]

theorem parseStep_album (acc : TrackInfo) (l : String) :
    (parseStep acc l).album =
      if strHasPre "tag album " l then trimPre "tag album " l else acc.album := by
  unfold parseStep
  cases h1 : strHasPre "tag artist " l
  · cases h2 : strHasPre "tag album " l <;>
      simp [h1, h2] <;>
      cases h3 : strHasPre "tag title " l <;>
      simp [h3]
  · simp [h1, artist_not_album l h1]

theorem parseStep_title (acc : TrackInfo) (l : String) :
    (parseStep acc l).title =
      if strHasPre "tag title " l then trimPre "tag title " l else acc.title := by
  unfold parseStep
  cases h1 : strHasPre "tag artist " l
  · cases h2 : strHasPre "tag album " l
    · cases h3 : strHasPre "tag title " l <;> simp [h1, h2, h3]
    · simp [h1, h2, album_not_title l h2]
  · simp [h1, artist_not_title l h1]

theorem lastTag_cons (p l : String) (ls : List String) (a : String) :
    (lastTagValue p (l :: ls)).getD a =
      (lastTagValue p ls).getD (if strHasPre p l then trimPre p l else a) := by
  rw [lastTagValue]
  cases hv : lastTagValue p ls with
  | some v => simp
  | none => cases hp : strHasPre p l <;> simp [hp]

/-- The fold in `parseCmusOutput`, in closed form: each field is the value of
the last line carrying that field's prefix, defaulting to the accumulator. -/
theorem parseFold : ∀ (ls : List String) (acc : TrackInfo),
    ls.foldl parseStep acc =
      ⟨(lastTagValue "tag artist " ls).getD acc.artist,
       (lastTagValue "tag album " ls).getD acc.album,
       (lastTagValue "tag title " ls).getD acc.title⟩
  | [], acc => by cases acc; simp [lastTagValue]
  | l :: ls, acc => by
    rw [List.foldl_cons, parseFold ls (parseStep acc l)]
    rw [lastTag_cons "tag artist " l ls acc.artist,
      lastTag_cons "tag album " l ls acc.album,
      lastTag_cons "tag title " l ls acc.title]
    rw [parseStep_artist acc l, parseStep_album acc l, parseStep_title acc l]

/-- `parseCmusOutput`, characterized: unrecognized lines are ignored, and for
each recognized tag the last occurrence's value is returned ( `""` when the
tag never occurs). -/
theorem parse_lastTag (output : String) :
    parseCmusOutput output =
      ⟨(lastTagValue "tag artist " (linesOf output)).getD "",
       (lastTagValue "tag album " (linesOf output)).getD "",
       (lastTagValue "tag title " (linesOf output)).getD ""⟩ :=
  parseFold (linesOf output) ⟨"", "", ""⟩

theorem lastTag_none (p : String) :
    ∀ ls : List String, (∀ l ∈ ls, strHasPre p l = false) → lastTagValue p ls = none
  | [], _ => rfl
  | l :: ls, h => by
    rw [lastTagValue, lastTag_none p ls (fun x hx => h x (List.mem_cons_of_mem _ hx))]
    simp [h l (List.mem_cons_self l ls)]

/-- When at least one line of `ls` carries prefix `p` and every such line is
the same line `v`, the extracted tag value is `v` with `p` trimmed off. -/
theorem lastTag_of_uniform (p v : String) :
    ∀ ls : List String, (∃ l ∈ ls, strHasPre p l = true) →
      (∀ l ∈ ls, strHasPre p l = true → l = v) →
      lastTagValue p ls = some (trimPre p v)
  | [], hex, _ => by simp at hex
  | l :: ls, hex, huni => by
    by_cases hex' : ∃ x ∈ ls, strHasPre p x = true
    · rw [lastTagValue,
        lastTag_of_uniform p v ls hex' (fun x hx h => huni x (List.mem_cons_of_mem _ hx) h)]
    · have hnone : lastTagValue p ls = none := by
        apply lastTag_none
        intro x hx
        cases hxp : strHasPre p x
        · rfl
        · exact absurd ⟨x, hx, hxp⟩ hex'
      have hl : strHasPre p l = true := by
        rcases hex with ⟨x, hx, hxp⟩
        rcases List.mem_cons.mp hx with h | h
        · rw [← h]; exact hxp
        · exact absurd ⟨x, h, hxp⟩ hex'
      rw [lastTagValue, hnone]
      simp only [hl, if_true]
      rw [huni l (List.mem_cons_self l ls) hl]

/-- Trimming a literal prefix off a string that visibly carries it. -/
theorem trimPre_append (p X : String) : trimPre p (p ++ X) = X := by
  have h : strHasPre p (p ++ X) = true := by
    unfold strHasPre
    exact (isPrefList_iff _ _).mpr (by rw [String.data_append]; exact List.prefix_append _ _)
  unfold trimPre
  rw [h]
  simp only [if_true, String.data_append]
  rw [List.drop_left]

/-! ## The claims -/

/-- C1 counterexample: starting from the initial model, track A is polled,
then track B (a different artist/title) while A's fetch is still pending;
B's fetch result arrives first and A's arrives last.  The update loop applies
A's result to the displayed state — the final model shows track B in the
status fields but A's lyrics `"LA"` in the lyrics field and viewport — which
refutes "the superseded fetch's result is never displayed, regardless of
which fetch completes first". -/
theorem C1_counterexample :
    (teaRun ⟨"", "", "", "Loading...", ""⟩
      [.songInfo "A" "" "X" none, .songInfo "B" "" "Y" none,
       .songLyrics "B" "" "Y" "LB" none,
       .songLyrics "A" "" "X" "LA" none]).lyrics = "LA" ∧
    (teaRun ⟨"", "", "", "Loading...", ""⟩
      [.songInfo "A" "" "X" none, .songInfo "B" "" "Y" none,
       .songLyrics "B" "" "Y" "LB" none,
       .songLyrics "A" "" "X" "LA" none]).content = "LA" ∧
    (teaRun ⟨"", "", "", "Loading...", ""⟩
      [.songInfo "A" "" "X" none, .songInfo "B" "" "Y" none,
       .songLyrics "B" "" "Y" "LB" none,
       .songLyrics "A" "" "X" "LA" none]).artist = "B" ∧
    (teaRun ⟨"", "", "", "Loading...", ""⟩
      [.songInfo "A" "" "X" none, .songInfo "B" "" "Y" none,
       .songLyrics "B" "" "Y" "LB" none,
       .songLyrics "A" "" "X" "LA" none]).title = "Y" := by
  refine ⟨?_, ?_, ?_, ?_⟩ <;> decide

/-- C1 (amended): the update loop of the TUI `main.go` performs no staleness
check at all: every successful `songLyricsMsg` is applied to the displayed
state unconditionally, whatever track it was fetched for, so after two
overlapping fetches the displayed lyrics are those of whichever fetch
completes last — the latest request's result is displayed only when it
happens to complete last.  Moreover every `songInfoMsg` schedules a fetch for
the model's current track, even when artist and title are unchanged (no
same-track suppression). -/
theorem C1_last_completion_wins (m : TeaModel)
    (a₁ b₁ t₁ a₂ b₂ t₂ ly₁ ly₂ : String) (err : Option String) :
    ((teaUpdate m (.songLyrics a₁ b₁ t₁ ly₁ none)).1.lyrics = ly₁ ∧
     (teaUpdate m (.songLyrics a₁ b₁ t₁ ly₁ none)).1.content = ly₁) ∧
    ((teaUpdate m (.songInfo a₂ b₂ t₂ err)).2 =
      [.tick, .fetchLyricsFor (teaUpdate m (.songInfo a₂ b₂ t₂ err)).1.artist
        (teaUpdate m (.songInfo a₂ b₂ t₂ err)).1.album
        (teaUpdate m (.songInfo a₂ b₂ t₂ err)).1.title]) ∧
    ((teaRun m [.songInfo a₁ b₁ t₁ none, .songInfo a₂ b₂ t₂ none,
        .songLyrics a₂ b₂ t₂ ly₂ none,
        .songLyrics a₁ b₁ t₁ ly₁ none]).lyrics = ly₁) ∧
    ((teaRun m [.songInfo a₁ b₁ t₁ none, .songInfo a₂ b₂ t₂ none,
        .songLyrics a₁ b₁ t₁ ly₁ none,
        .songLyrics a₂ b₂ t₂ ly₂ none]).lyrics = ly₂) := by
  exact ⟨⟨rfl, rfl⟩, rfl, rfl, rfl⟩

theorem strHasPre_append (p X : String) : strHasPre p (p ++ X) = true := by
  unfold strHasPre
  exact (isPrefList_iff _ _).mpr (by rw [String.data_append]; exact List.prefix_append _ _)

/-- C2 counterexample: a player output whose status line is `status stopped`
but whose title tag value contains the text `status paused` is treated as
active playback (the regex matches anywhere in the text), so the program does
not yield the no-track-playing outcome — refuting "for every text whose
status is `status stopped`, the program yields the no-track-playing outcome
regardless of any tag lines present". -/
theorem C2_counterexample :
    runMain "status stopped\ntag artist A\ntag title status paused B" ≠
      MainOutcome.noTrack := by
  decide

/-- C2 (amended): a player-status text with a `status playing` or `status
paused` line whose only artist tag line is `tag artist X` and only title tag
line is `tag title Y`, with `X` and `Y` non-empty, parses to artist `X` and
title `Y` and proceeds to fetch; and a text none of whose characters spell
`status playing` or `status paused` anywhere (in particular one whose status
line is `status stopped` and whose tag values avoid those substrings) yields
the no-track-playing outcome, with no descriptor produced. -/
theorem C2_roundtrip (output X Y : String) :
    ((("status playing" ∈ linesOf output ∨ "status paused" ∈ linesOf output) →
      ("tag artist " ++ X) ∈ linesOf output →
      (∀ l ∈ linesOf output, strHasPre "tag artist " l = true → l = "tag artist " ++ X) →
      ("tag title " ++ Y) ∈ linesOf output →
      (∀ l ∈ linesOf output, strHasPre "tag title " l = true → l = "tag title " ++ Y) →
      X ≠ "" → Y ≠ "" →
      runMain output =
        MainOutcome.display X (parseCmusOutput output).album Y
          (placeholderFor X (parseCmusOutput output).album Y))) ∧
    (("status stopped" ∈ linesOf output) →
      containsSub output.data ("status playing").data = false →
      containsSub output.data ("status paused").data = false →
      runMain output = MainOutcome.noTrack) := by
  constructor
  · intro hstatus hamem hauni htmem htuni hX hY
    have hact : statusActive output = true := by
      rcases hstatus with h | h
      · exact statusActive_of_line output _ h (Or.inl rfl)
      · exact statusActive_of_line output _ h (Or.inr rfl)
    have hart : lastTagValue "tag artist " (linesOf output) = some X := by
      rw [lastTag_of_uniform "tag artist " ("tag artist " ++ X) (linesOf output)
        ⟨"tag artist " ++ X, hamem, strHasPre_append _ _⟩ hauni]
      rw [trimPre_append]
    have htit : lastTagValue "tag title " (linesOf output) = some Y := by
      rw [lastTag_of_uniform "tag title " ("tag title " ++ Y) (linesOf output)
        ⟨"tag title " ++ Y, htmem, strHasPre_append _ _⟩ htuni]
      rw [trimPre_append]
    obtain ⟨alb, halb⟩ : ∃ alb, parseCmusOutput output = ⟨X, alb, Y⟩ := by
      refine ⟨(lastTagValue "tag album " (linesOf output)).getD "", ?_⟩
      rw [parse_lastTag output, hart, htit]
      rfl
    unfold runMain
    rw [hact, halb]
    simp [hX, hY, fetchLyrics, placeholderFor]
  · intro _ h1 h2
    unfold runMain statusActive
    rw [h1, h2]
    rfl

/-- Witness for C2 at a concrete playing output and a concrete stopped
output. -/
theorem C2_witness :
    runMain "status playing\ntag artist Queen\ntag title Bohemian" =
      MainOutcome.display "Queen"
        (parseCmusOutput "status playing\ntag artist Queen\ntag title Bohemian").album
        "Bohemian"
        (placeholderFor "Queen"
          (parseCmusOutput "status playing\ntag artist Queen\ntag title Bohemian").album
          "Bohemian") ∧
    runMain "status stopped" = MainOutcome.noTrack := by
  constructor
  · exact (C2_roundtrip "status playing\ntag artist Queen\ntag title Bohemian"
      "Queen" "Bohemian").1 (by decide) (by decide) (by decide) (by decide) (by decide)
      (by decide) (by decide)
  · exact (C2_roundtrip "status stopped" "" "").2 (by decide) (by decide) (by decide)

/-- C3 counterexample: with two `tag artist ` lines, `parseCmusOutput` does
not return the first occurrence's value — refuting "parseCmusOutput returns
the value from the first occurrence of that tag". -/
theorem C3_counterexample :
    (parseCmusOutput "tag artist A\ntag artist B").artist ≠ "A" := by
  decide

/-- C3 (amended): for every player-status text containing multiple lines with
the same recognized tag prefix, `parseCmusOutput` returns the value from the
last occurrence of that tag (each matching line overwrites the previous
value); lines not matching a recognized tag prefix are ignored.  Stated as a
closed form: each field equals the trimmed value of the last line carrying
that field's prefix, and only such lines contribute. -/
theorem C3_last_occurrence_wins (output : String) :
    parseCmusOutput output =
      ⟨(lastTagValue "tag artist " (linesOf output)).getD "",
       (lastTagValue "tag album " (linesOf output)).getD "",
       (lastTagValue "tag title " (linesOf output)).getD ""⟩ :=
  parse_lastTag output

/-- C9: `fetchLyrics` in `main.go` returns the fixed placeholder string and a
nil error for every input, and consequently `runMain` never reaches the
fetch-error outcome — its only outcomes are no-track, incomplete metadata, or
displaying the placeholder; the Genius client is never involved. -/
theorem C9_placeholder_only :
    (∀ a b t : String, fetchLyrics a b t = (placeholderFor a b t, none)) ∧
    (∀ output : String,
      runMain output = MainOutcome.noTrack ∨
      runMain output = MainOutcome.incompleteMetadata ∨
      runMain output =
        MainOutcome.display (parseCmusOutput output).artist
          (parseCmusOutput output).album (parseCmusOutput output).title
          (placeholderFor (parseCmusOutput output).artist
            (parseCmusOutput output).album (parseCmusOutput output).title)) := by
  constructor
  · intro a b t
    rfl
  · intro output
    unfold runMain
    split
    · exact Or.inl rfl
    · dsimp only
      split
      · exact Or.inr (Or.inl rfl)
      · exact Or.inr (Or.inr rfl)

/-- C10: the active-playback check succeeds exactly when `status playing` or
`status paused` occurs as a substring anywhere in the player output; in
particular an output with no status line at all, whose title tag value
contains `status playing`, is treated as active playback and proceeds to
display. -/
theorem C10_substring_status :
    (∀ s : String, statusActive s = true ↔
      (("status playing").data <:+: s.data ∨ ("status paused").data <:+: s.data)) ∧
    runMain "tag artist A\ntag title status playing remix" =
      MainOutcome.display "A" "" "status playing remix"
        (placeholderFor "A" "" "status playing remix") := by
  constructor
  · intro s
    unfold statusActive
    rw [Bool.or_eq_true, containsSub_iff, containsSub_iff]
  · decide

/-- C4: the client queries search with the single combined string
`artist ++ " " ++ title` (always the first remote call); an empty hit list
fails with the no-results error and performs no further stage (the trace ends
at the search call); otherwise exactly the numeric identifier of the first
hit is used for the song-lookup stage. -/
theorem C4_search_combined_query (env : GeniusEnv) (artist title : String) :
    ((GetLyrics env artist title).2.head? =
      some (RemoteCall.searchCall (artist ++ " " ++ title))) ∧
    (∀ sr : SearchResponse, env.searchFn (artist ++ " " ++ title) = .ok sr →
      sr.hits = [] →
      GetLyrics env artist title =
        (.error "no results", [.searchCall (artist ++ " " ++ title)])) ∧
    (∀ (sr : SearchResponse) (hit : Hit) (rest : List Hit),
      env.searchFn (artist ++ " " ++ title) = .ok sr → sr.hits = hit :: rest →
      (GetLyrics env artist title).2.take 2 =
        [.searchCall (artist ++ " " ++ title), .getSongCall hit.result.id]) := by
  refine ⟨?_, ?_, ?_⟩
  · cases hs : env.searchFn (artist ++ " " ++ title) with
    | error e => simp only [GetLyrics, hs]; rfl
    | ok sr =>
      cases hh : sr.hits with
      | nil => simp only [GetLyrics, hs, hh]; rfl
      | cons hit rest =>
        cases hg : env.getSongFn hit.result.id with
        | error e => simp only [GetLyrics, hs, hh, hg]; rfl
        | ok song =>
          cases hp : getLyricsStage env song.path with
          | error e => simp only [GetLyrics, hs, hh, hg, hp]; rfl
          | ok lyrics => simp only [GetLyrics, hs, hh, hg, hp]; rfl
  · intro sr hs hh
    simp only [GetLyrics, hs, hh]
  · intro sr hit rest hs hh
    cases hg : env.getSongFn hit.result.id with
    | error e => simp only [GetLyrics, hs, hh, hg]; rfl
    | ok song =>
      cases hp : getLyricsStage env song.path with
      | error e => simp only [GetLyrics, hs, hh, hg, hp]; rfl
      | ok lyrics => simp only [GetLyrics, hs, hh, hg, hp]; rfl

/-- Witness for C4: a search with no hits fails with `no results` after only
the search call; with a hit, the song lookup uses the first hit's id. -/
theorem C4_witness :
    ((GetLyrics envNoHits "a" "t").2.head? =
      some (RemoteCall.searchCall ("a" ++ " " ++ "t"))) ∧
    (GetLyrics envNoHits "a" "t" =
      (.error "no results", [.searchCall ("a" ++ " " ++ "t")])) ∧
    ((GetLyrics envSongErr "a" "t").2.take 2 =
      [.searchCall ("a" ++ " " ++ "t"), .getSongCall sampleHit.result.id]) :=
  ⟨(C4_search_combined_query envNoHits "a" "t").1,
   (C4_search_combined_query envNoHits "a" "t").2.1 ⟨[]⟩ rfl rfl,
   (C4_search_combined_query envSongErr "a" "t").2.2 ⟨[sampleHit]⟩ sampleHit [] rfl rfl⟩

theorem strLength_zero_iff (s : String) : s.length = 0 ↔ s = "" := by
  cases s with
  | mk data =>
    constructor
    · intro h
      have hlen : data.length = 0 := h
      have hd : data = [] := List.length_eq_zero.mp hlen
      rw [hd]
    · intro h
      rw [h]
      exact String.length_empty

/-- C5: the scrape stage collects the contents of all regions carrying the
lyrics-container marker, with their excluded sub-regions removed, in document
order (`joinedLyrics`); it fails with the no-lyrics-found error exactly when
that concatenation is empty, and returns the concatenation otherwise. -/
theorem C5_scrape_containers (doc : Node) :
    (scrapeSource doc = Except.error "no lyrics found on page" ↔
      joinedLyrics doc = "") ∧
    (joinedLyrics doc = "" ∨ scrapeSource doc = Except.ok (joinedLyrics doc)) := by
  have hb : ((collectContainers doc).foldl
      (fun acc children => acc ++ serializeNodes (removeExcl children)) "")
        = joinedLyrics doc := by
    unfold joinedLyrics String.join
    rw [List.foldl_map]
  have hmain : scrapeSource doc =
      if (joinedLyrics doc).length = 0 then Except.error "no lyrics found on page"
      else Except.ok (joinedLyrics doc) := by
    unfold scrapeSource
    rw [hb]
  by_cases hz : joinedLyrics doc = ""
  · have hlen : (joinedLyrics doc).length = 0 := by rw [hz]; rfl
    rw [hmain]
    simp [hlen, hz]
  · have hlen : ¬ (joinedLyrics doc).length = 0 := by
      intro h
      exact hz ((strLength_zero_iff _).mp h)
    rw [hmain]
    simp [hlen, hz]

/-- C6: normalization first turns the line-break markup `<br/>` and `<br>`
into literal newlines and only then strips the remaining markup and trims, so
the claim's sample input yields the three-line text; stripping the markup
without the first pass would instead fuse the three lines together. -/
theorem C6_two_pass_normalization :
    normalizeLyrics "line one<br/>line two<br>line three" =
      "line one\nline two\nline three" ∧
    trimSpace (stripTags "line one<br/>line two<br>line three") =
      "line oneline twoline three" := by
  constructor
  · decide
  · decide

/-- C7 counterexample: when the search succeeds but returns an empty hit
list — a failure of the search stage per the claim — `GetLyrics` returns the
bare error `no results`, which carries no stage name (every stage-wrapped
message contains the `": "` separator that `wrapErr` inserts, but this
message contains no colon at all) — refuting "every failure at any of the
three stages has the failing stage's name attached to its message". -/
theorem C7_counterexample :
    (GetLyrics envNoHits "a" "t").1 = Except.error "no results" ∧
    ':' ∉ ("no results").data := by
  constructor
  · rfl
  · decide

/-- C7 (amended): every failure at any of the three stages makes `GetLyrics`
return immediately, with no subsequent stage executed (the trace stops at the
failing stage); failures of the remote calls at each stage, and the
empty-scrape failure, are wrapped with the failing stage's name — except the
empty-search-result failure, which is reported as the bare `no results`
without a stage name. -/
theorem C7_stage_wrapping (env : GeniusEnv) (artist title : String) :
    (∀ e, env.searchFn (artist ++ " " ++ title) = .error e →
      GetLyrics env artist title =
        (.error (wrapErr "search genius api" e),
         [.searchCall (artist ++ " " ++ title)])) ∧
    (∀ sr : SearchResponse, env.searchFn (artist ++ " " ++ title) = .ok sr →
      sr.hits = [] →
      GetLyrics env artist title =
        (.error "no results", [.searchCall (artist ++ " " ++ title)])) ∧
    (∀ (sr : SearchResponse) (hit : Hit) (rest : List Hit) (e : String),
      env.searchFn (artist ++ " " ++ title) = .ok sr → sr.hits = hit :: rest →
      env.getSongFn hit.result.id = .error e →
      GetLyrics env artist title =
        (.error (wrapErr "get song from genius api" e),
         [.searchCall (artist ++ " " ++ title), .getSongCall hit.result.id])) ∧
    (∀ (sr : SearchResponse) (hit : Hit) (rest : List Hit)
        (song : GetSongResponse) (e : String),
      env.searchFn (artist ++ " " ++ title) = .ok sr → sr.hits = hit :: rest →
      env.getSongFn hit.result.id = .ok song →
      getLyricsStage env song.path = .error e →
      GetLyrics env artist title =
        (.error (wrapErr "scrape lyrics from genius webpage" e),
         [.searchCall (artist ++ " " ++ title), .getSongCall hit.result.id,
          .fetchPageCall song.path])) := by
  refine ⟨?_, ?_, ?_, ?_⟩
  · intro e hs
    simp only [GetLyrics, hs]
  · intro sr hs hh
    simp only [GetLyrics, hs, hh]
  · intro sr hit rest e hs hh hg
    simp only [GetLyrics, hs, hh, hg]
  · intro sr hit rest song e hs hh hg hp
    simp only [GetLyrics, hs, hh, hg, hp]

/-- Witness for C7: a failing search is wrapped with the search stage's name
and stops after one call; a failing page fetch is wrapped with the scrape
stage's name after exactly the three calls. -/
theorem C7_witness :
    GetLyrics envSearchErr "a" "t" =
      (.error (wrapErr "search genius api" "boom"),
       [.searchCall ("a" ++ " " ++ "t")]) ∧
    GetLyrics envPageErr "a" "t" =
      (.error (wrapErr "scrape lyrics from genius webpage" "boom"),
       [.searchCall ("a" ++ " " ++ "t"), .getSongCall sampleHit.result.id,
        .fetchPageCall "/p"]) :=
  ⟨(C7_stage_wrapping envSearchErr "a" "t").1 "boom" rfl,
   (C7_stage_wrapping envPageErr "a" "t").2.2.2 ⟨[sampleHit]⟩ sampleHit [] ⟨"/p"⟩
     "boom" rfl rfl rfl rfl⟩

/-- C8: when the config file does not exist, `LoadConfig` returns a `Config`
with an empty credential and no error; a read failure of an existing file or
a parse failure yields an error (wrapped with the failing step's message). -/
theorem C8_missing_config_ok (env : ConfigEnv) (p : String)
    (hp : env.configPath = .ok p) :
    (env.readFile p = .notExists → LoadConfig env = .ok ⟨""⟩) ∧
    (∀ e, env.readFile p = .failure e →
      LoadConfig env = .error (wrapErr "read config file" e)) ∧
    (∀ d e, env.readFile p = .content d → env.unmarshal d = .error e →
      LoadConfig env = .error (wrapErr "parse config file" e)) := by
  refine ⟨?_, ?_, ?_⟩
  · intro h
    simp only [LoadConfig, hp, h]
  · intro e h
    simp only [LoadConfig, hp, h]
  · intro d e h hu
    simp only [LoadConfig, hp, h, hu]

/-- Witness for C8 at concrete environments: a missing file yields the empty
config, a read failure and a parse failure yield the wrapped errors. -/
theorem C8_witness :
    LoadConfig cfgEnvMissing = .ok ⟨""⟩ ∧
    LoadConfig cfgEnvReadFail = .error (wrapErr "read config file" "denied") ∧
    LoadConfig cfgEnvParseFail = .error (wrapErr "parse config file" "bad syntax") :=
  ⟨(C8_missing_config_ok cfgEnvMissing "config.json" rfl).1 rfl,
   (C8_missing_config_ok cfgEnvReadFail "config.json" rfl).2.1 "denied" rfl,
   (C8_missing_config_ok cfgEnvParseFail "config.json" rfl).2.2 "notjson" "bad syntax"
     rfl rfl⟩

end CmusLyrics
